import Mathlib

/- Verification of the topology-classification core of inmembrane
   (src/inmembrane.py): the surface-exposed-loop evaluator, the N-terminal
   coordinate normalizer, the surface-exposure classifier, the gram-negative
   barrel override and the summary counting step.  All definitions are
   shallow embeddings of the Python source; Python dictionaries holding
   helix/loop range fields become association lists, missing-key errors
   (KeyError) become an Except error value, Python ints become Int and
   predictor scores become Rat. -/

deriving instance DecidableEq for Except

namespace Inmembrane

/-- Length of a loop given as a pair (start, end): abs(end - start) + 1,
    exactly the loop_len lambda of the source. -/
def loopLen (loop : Int × Int) : Int := |loop.2 - loop.1| + 1

/-- Embedding of eval_surface_exposed_loop (src/inmembrane.py lines 743-776).
    The Python function destructively removes the N-terminal and C-terminal
    loops from its input list; functionally that is dropping the head (when
    it starts at residue 1) and then the last element (when it ends at
    sequence_length) before scanning the remainder for long internal loops. -/
def eval_surface_exposed_loop (sequence_length : Int) (n_transmembrane_region : Nat)
    (outer_loops : List (Int × Int))
    (terminal_exposed_loop_min internal_exposed_loop_min : Int) : Bool :=
  if n_transmembrane_region = 0 then
    decide (sequence_length ≥ terminal_exposed_loop_min)
  else
    match outer_loops with
    | [] => false
    | first :: rest =>
      if first.1 = 1 ∧ loopLen first ≥ terminal_exposed_loop_min then true
      else
        let loops1 := if first.1 = 1 then rest else first :: rest
        match loops1.getLast? with
        | none => false
        | some lastLoop =>
          if lastLoop.2 = sequence_length ∧ loopLen lastLoop ≥ terminal_exposed_loop_min then
            true
          else
            let loops2 := if lastLoop.2 = sequence_length then loops1.dropLast else loops1
            loops2.any (fun lp => decide (loopLen lp ≥ internal_exposed_loop_min))

/-- The loop-exposure decision exactly as the specification words it
    (spec section 4.2, rules 1 to 6, first match wins): rule 1 whole-protein
    case, rule 2 empty list, rule 3 remove a first loop starting at residue 1
    and accept it when long enough, rule 4 remove a last loop ending at
    sequence_length and accept it when long enough, rule 5 accept any
    remaining loop of internal length, rule 6 reject. -/
def has_exposed_loop_spec (sequence_length : Int) (n_transmembrane_regions : Nat)
    (outer_loops : List (Int × Int)) (terminal_min internal_min : Int) : Bool :=
  if n_transmembrane_regions = 0 then decide (sequence_length ≥ terminal_min)
  else if outer_loops.isEmpty then false
  else
    let nterminal : Option (Int × Int) :=
      match outer_loops with
      | lp :: _ => if lp.1 = 1 then some lp else none
      | [] => none
    let remaining1 : List (Int × Int) :=
      match outer_loops with
      | lp :: rest => if lp.1 = 1 then rest else lp :: rest
      | [] => []
    if (nterminal.map (fun lp => decide (loopLen lp ≥ terminal_min))).getD false then true
    else
      let cterminal : Option (Int × Int) :=
        match remaining1.getLast? with
        | some lp => if lp.2 = sequence_length then some lp else none
        | none => none
      let remaining2 : List (Int × Int) :=
        match remaining1.getLast? with
        | some lp => if lp.2 = sequence_length then remaining1.dropLast else remaining1
        | none => remaining1
      if (cterminal.map (fun lp => decide (loopLen lp ≥ terminal_min))).getD false then true
      else remaining2.any (fun lp => decide (loopLen lp ≥ internal_min))

/-- C1: the source evaluator agrees with the six spec rules on every input,
    and on the concrete input outer_loops = [(1,5)], sequence_length = 5,
    terminal_min = 3, internal_min = 100, one transmembrane region, it
    returns true (terminal precedence over the internal threshold). -/
theorem C1_eval_surface_exposed_loop_matches_spec :
    (∀ (L : Int) (n : Nat) (loops : List (Int × Int)) (tmin imin : Int),
      eval_surface_exposed_loop L n loops tmin imin =
        has_exposed_loop_spec L n loops tmin imin) ∧
    eval_surface_exposed_loop 5 1 [(1, 5)] 3 100 = true := by
  constructor
  · intro L n loops tmin imin
    cases n with
    | zero => rfl
    | succ m =>
      cases loops with
      | nil => rfl
      | cons first rest =>
        simp only [eval_surface_exposed_loop, has_exposed_loop_spec, List.isEmpty_cons,
          Nat.succ_ne_zero, if_neg, if_false, Bool.false_eq_true]
        by_cases h1 : first.1 = 1
        · by_cases h2 : loopLen first ≥ tmin
          · simp [h1, h2]
          · cases hL : rest.getLast? with
            | none =>
              have hrest : rest = [] := by
                cases rest with
                | nil => rfl
                | cons a l => simp at hL
              subst hrest
              simp [h1, h2]
            | some lp =>
              by_cases hc : lp.2 = L
              · by_cases ht : loopLen lp ≥ tmin
                · simp [h1, h2, hL, hc, ht]
                · simp [h1, h2, hL, hc, ht]
              · simp [h1, h2, hL, hc]
        · cases hL : (first :: rest).getLast? with
          | none => simp at hL
          | some lp =>
            by_cases hc : lp.2 = L
            · by_cases ht : loopLen lp ≥ tmin
              · simp [h1, hL, hc, ht]
              · simp [h1, hL, hc, ht]
            · simp [h1, hL, hc]
  · decide

/-- Subtract the cut length from both endpoints of a range, as the first
    loop of chop_nterminal_peptide does (lines 724-729). -/
def shiftPair (i_cut : Int) (p : Int × Int) : Int × Int := (p.1 - i_cut, p.2 - i_cut)

/-- The second loop of chop_nterminal_peptide (lines 730-740): scanning the
    shifted ranges, a range with both endpoints at most 0 is deleted, a range
    straddling 0 is clipped to start at residue 1, the rest are kept.  The
    Python code scans from the end with in-place deletion, which touches each
    element exactly once and preserves the order of the survivors, so it is
    this elementwise pass. -/
def cleanup : List (Int × Int) → List (Int × Int)
  | [] => []
  | (j, k) :: rest =>
    if j ≤ 0 ∧ k ≤ 0 then cleanup rest
    else if j ≤ 0 ∧ 0 < k then (1, k) :: cleanup rest
    else (j, k) :: cleanup rest

/-- Effect of chop_nterminal_peptide on one helix/loop range field. -/
def chopRanges (i_cut : Int) (loops : List (Int × Int)) : List (Int × Int) :=
  cleanup (loops.map (shiftPair i_cut))

/-- The elementwise transformation chopRanges applies to each range. -/
def chopSeg (i_cut : Int) (p : Int × Int) : Option (Int × Int) :=
  if p.1 - i_cut ≤ 0 ∧ p.2 - i_cut ≤ 0 then none
  else if p.1 - i_cut ≤ 0 ∧ 0 < p.2 - i_cut then some (1, p.2 - i_cut)
  else some (p.1 - i_cut, p.2 - i_cut)

lemma cleanup_map_shift_eq_filterMap (i_cut : Int) (l : List (Int × Int)) :
    cleanup (l.map (shiftPair i_cut)) = l.filterMap (chopSeg i_cut) := by
  induction l with
  | nil => rfl
  | cons p rest ih =>
    simp only [List.map_cons, cleanup, shiftPair, List.filterMap_cons, chopSeg]
    by_cases h1 : p.1 - i_cut ≤ 0 ∧ p.2 - i_cut ≤ 0
    · rw [if_pos h1, if_pos h1]
      exact ih
    · rw [if_neg h1, if_neg h1]
      by_cases h2 : p.1 - i_cut ≤ 0 ∧ 0 < p.2 - i_cut
      · rw [if_pos h2, if_pos h2, ih]
      · rw [if_neg h2, if_neg h2, ih]

/-- chopRanges is an elementwise filterMap. -/
lemma chopRanges_eq_filterMap (i_cut : Int) (l : List (Int × Int)) :
    chopRanges i_cut l = l.filterMap (chopSeg i_cut) :=
  cleanup_map_shift_eq_filterMap i_cut l

/-- A list of ranges tiles the integer interval from a to b contiguously:
    each range starts where the previous one ended plus one, starts never
    exceed ends, and the last range ends at b.  partition of the record
    coordinates means isPartitionFrom 1 sequence_length. -/
def isPartitionFrom : Int → Int → List (Int × Int) → Bool
  | a, b, [] => decide (a = b + 1)
  | a, b, (j, k) :: rest => decide (j = a) && decide (j ≤ k) && isPartitionFrom (k + 1) b rest

lemma isPartitionFrom_le (l : List (Int × Int)) :
    ∀ a b : Int, isPartitionFrom a b l = true → a ≤ b + 1 := by
  induction l with
  | nil =>
    intro a b h
    simp only [isPartitionFrom, decide_eq_true_eq] at h
    omega
  | cons p rest ih =>
    intro a b h
    simp only [isPartitionFrom, Bool.and_eq_true, decide_eq_true_eq] at h
    have := ih (p.2 + 1) b h.2
    omega

lemma isPartitionFrom_bounds (l : List (Int × Int)) :
    ∀ a b : Int, isPartitionFrom a b l = true →
      ∀ x ∈ l, a ≤ x.1 ∧ x.1 ≤ x.2 ∧ x.2 ≤ b := by
  induction l with
  | nil => intro a b _ x hx; cases hx
  | cons p rest ih =>
    intro a b h x hx
    simp only [isPartitionFrom, Bool.and_eq_true, decide_eq_true_eq] at h
    obtain ⟨⟨hja, hjk⟩, hrest⟩ := h
    have hb := isPartitionFrom_le rest (p.2 + 1) b hrest
    cases hx with
    | head => omega
    | tail _ hmem =>
      have := ih (p.2 + 1) b hrest x hmem
      omega

/-- Shifting every range shifts the tiled interval. -/
lemma isPartitionFrom_map_shift (c : Int) (l : List (Int × Int)) :
    ∀ a b : Int, isPartitionFrom a b l = true →
      isPartitionFrom (a - c) (b - c) (l.map (shiftPair c)) = true := by
  induction l with
  | nil =>
    intro a b h
    simp only [isPartitionFrom, decide_eq_true_eq] at h
    simp only [List.map_nil, isPartitionFrom, decide_eq_true_eq]
    omega
  | cons p rest ih =>
    intro a b h
    simp only [isPartitionFrom, Bool.and_eq_true, decide_eq_true_eq] at h
    obtain ⟨⟨hja, hjk⟩, hrest⟩ := h
    have hrest2 := ih (p.2 + 1) b hrest
    simp only [List.map_cons, shiftPair, isPartitionFrom, Bool.and_eq_true,
      decide_eq_true_eq]
    refine ⟨⟨by omega, by omega⟩, ?_⟩
    have : p.2 + 1 - c = p.2 - c + 1 := by omega
    rw [this] at hrest2
    exact hrest2

/-- cleanup does nothing to ranges that already start at residue 1 or later. -/
lemma cleanup_of_pos (l : List (Int × Int)) :
    ∀ a b : Int, isPartitionFrom a b l = true → 1 ≤ a → cleanup l = l := by
  induction l with
  | nil => intro a b _ _; rfl
  | cons p rest ih =>
    intro a b h ha
    obtain ⟨j, k⟩ := p
    simp only [isPartitionFrom, Bool.and_eq_true, decide_eq_true_eq] at h
    obtain ⟨⟨hja, hjk⟩, hrest⟩ := h
    have h1 : ¬(j ≤ 0 ∧ k ≤ 0) := by omega
    have h2 : ¬(j ≤ 0 ∧ 0 < k) := by omega
    simp only [cleanup]
    rw [if_neg h1, if_neg h2, ih (k + 1) b hrest (by omega)]

/-- cleanup restores a tiling that has been shifted below residue 1 to a
    tiling that starts at residue 1. -/
lemma cleanup_partition (l : List (Int × Int)) :
    ∀ a b : Int, isPartitionFrom a b l = true → a ≤ 1 → 0 ≤ b →
      isPartitionFrom 1 b (cleanup l) = true := by
  induction l with
  | nil =>
    intro a b h ha hb
    simp only [isPartitionFrom, decide_eq_true_eq] at h
    simp only [cleanup, isPartitionFrom, decide_eq_true_eq]
    omega
  | cons p rest ih =>
    intro a b h ha hb
    obtain ⟨j, k⟩ := p
    simp only [isPartitionFrom, Bool.and_eq_true, decide_eq_true_eq] at h
    obtain ⟨⟨hja, hjk⟩, hrest⟩ := h
    by_cases hk : k ≤ 0
    · have h1 : j ≤ 0 ∧ k ≤ 0 := by omega
      simp only [cleanup]
      rw [if_pos h1]
      exact ih (k + 1) b hrest (by omega) hb
    · by_cases hj : j ≤ 0
      · have h1 : ¬(j ≤ 0 ∧ k ≤ 0) := by omega
        have h2 : j ≤ 0 ∧ 0 < k := by omega
        simp only [cleanup]
        rw [if_neg h1, if_pos h2]
        rw [cleanup_of_pos rest (k + 1) b hrest (by omega)]
        simp only [isPartitionFrom, hrest, Bool.and_true, Bool.and_eq_true,
          decide_eq_true_eq]
        exact ⟨trivial, by omega⟩
      · have h1 : ¬(j ≤ 0 ∧ k ≤ 0) := by omega
        have h2 : ¬(j ≤ 0 ∧ 0 < k) := by omega
        simp only [cleanup]
        rw [if_neg h1, if_neg h2]
        rw [cleanup_of_pos rest (k + 1) b hrest (by omega)]
        simp only [isPartitionFrom, hrest, Bool.and_true, Bool.and_eq_true,
          decide_eq_true_eq]
        omega

/-- chopRanges turns a tiling of residues 1 to L into a tiling of residues
    1 to L - c, for any cut 1 ≤ c ≤ L. -/
lemma chopRanges_partition (l : List (Int × Int)) (L c : Int)
    (h : isPartitionFrom 1 L l = true) (hc1 : 1 ≤ c) (hc2 : c ≤ L) :
    isPartitionFrom 1 (L - c) (chopRanges c l) = true := by
  have hshift := isPartitionFrom_map_shift c l 1 L h
  exact cleanup_partition (l.map (shiftPair c)) (1 - c) (L - c) hshift
    (by omega) (by omega)

/-- Configuration values read by the classifier (from the global params
    dictionary of the source). -/
structure Params where
  helix_programs : List String
  terminal_exposed_loop_min : Int
  internal_exposed_loop_min : Int
  tmbhunt_cutoff : Rat
  bomp_cutoff : Rat
deriving Repr, DecidableEq

/-- A protein feature record.  The Python source stores every feature in one
    dictionary; the helix and loop range fields, whose keys end in _helices,
    _inner_loops or _outer_loops and whose presence depends on which programs
    ran, are kept as an association list range_props, so that a missing key
    can be distinguished from an empty list.  dict_get returns a falsy value
    for the missing fields the other claims read, so those are plain fields
    with falsy defaults.  Predictor scores (floats or small ints in Python)
    are modelled as rationals. -/
structure Protein where
  sequence_length : Int := 0
  name : String := ""
  hmmsearch : List String := []
  is_lipop : Bool := false
  lipop_cleave_position : Int := 0
  is_signalp : Bool := false
  signalp_cleave_position : Int := 0
  range_props : List (String × List (Int × Int)) := []
  bomp : Option Rat := none
  tmbhunt : Option Rat := none
  tmbhunt_prob : Option Rat := none
  category : String := ""
deriving Repr, DecidableEq

/-- Dictionary lookup of a helix or loop range field. -/
def lookupProp (p : Protein) (key : String) : Option (List (Int × Int)) :=
  p.range_props.lookup key

/-- Embedding of chop_nterminal_peptide (lines 722-741): the sequence length
    shrinks by the cut and every range field is shifted and cleaned up. -/
def chop_nterminal_peptide (p : Protein) (i_cut : Int) : Protein :=
  { p with
    sequence_length := p.sequence_length - i_cut,
    range_props := p.range_props.map (fun kv => (kv.1, chopRanges i_cut kv.2)) }

/-- Truthiness of dict_get(protein, program + _helices) as used by the inner
    has_tm_helix helper (lines 784-788): a missing field and an empty list
    are both falsy. -/
def has_tm_helix (params : Params) (p : Protein) : Bool :=
  params.helix_programs.any fun prog =>
    !((lookupProp p (prog ++ "_helices")).getD []).isEmpty

/-- The evidence tags of the loop at lines 819-822, given that the guard
    has_tm_helix(protein) is true: one tag program(count) for every enabled
    program, in order, with a KeyError when a program has no helices field.
    The helper recurses over the program list and reads only the range
    fields of the record, so it takes them directly. -/
def helixTags (rp : List (String × List (Int × Int))) :
    List String → Except String String
  | [] => .ok ""
  | prog :: rest =>
    match rp.lookup (prog ++ "_helices") with
    | some hs =>
      match helixTags rp rest with
      | .ok s => .ok (prog ++ "(" ++ toString hs.length ++ ");" ++ s)
      | .error e => .error e
    | none => .error ("KeyError: " ++ prog ++ "_helices")

/-- The whole evidence loop at lines 819-822.  The guard has_tm_helix is
    evaluated once per iteration but does not depend on the loop variable,
    so the loop appends a tag for every program when it is true and nothing
    when it is false. -/
def helix_details (params : Params) (p : Protein) : Except String String :=
  if has_tm_helix params p then helixTags p.range_props params.helix_programs
  else .ok ""

/-- The inner has_surface_exposed_loop helper (lines 790-799): try each
    enabled program in order, return true on the first one whose outer loops
    pass eval_surface_exposed_loop, raising a KeyError when a helices or
    outer-loops field is missing.  It reads only the sequence length and the
    range fields of the record, so it takes them directly. -/
def hselGo (params : Params) (seqlen : Int) (rp : List (String × List (Int × Int))) :
    List String → Except String Bool
  | [] => .ok false
  | prog :: rest =>
    match rp.lookup (prog ++ "_helices") with
    | none => .error ("KeyError: " ++ prog ++ "_helices")
    | some hs =>
      match rp.lookup (prog ++ "_outer_loops") with
      | none => .error ("KeyError: " ++ prog ++ "_outer_loops")
      | some ol =>
        if eval_surface_exposed_loop seqlen hs.length ol
            params.terminal_exposed_loop_min params.internal_exposed_loop_min then
          .ok true
        else hselGo params seqlen rp rest

/-- has_surface_exposed_loop over all enabled programs. -/
def has_surface_exposed_loop (params : Params) (p : Protein) : Except String Bool :=
  hselGo params p.sequence_length p.range_props params.helix_programs

/-- The record as it stands after the trimming step at lines 824-827:
    lipoprotein cleavage first, signal-peptide cleavage otherwise, no trim
    when neither signal is present. -/
def trimmedOf (p : Protein) : Protein :=
  if p.is_lipop then chop_nterminal_peptide p p.lipop_cleave_position
  else if p.is_signalp then chop_nterminal_peptide p p.signalp_cleave_position
  else p

/-- The evidence string built at lines 812-822, before any trimming. -/
def detailsOf (params : Params) (p : Protein) : Except String String :=
  match helix_details params p with
  | .error e => .error e
  | .ok hd =>
    .ok ((if !p.hmmsearch.isEmpty then "hmm(" ++ p.hmmsearch.headD "" ++ ");" else "")
      ++ (if p.is_lipop then "lipop;" else "")
      ++ (if p.is_signalp then "signalp;" else "")
      ++ hd)

/-- The PSE-or-MEMBRANE decision of lines 831-835 applied to a trimmed
    record. -/
def loopBranch (params : Params) (t : Protein) (details : String) :
    Except String (String × String) :=
  match hselGo params t.sequence_length t.range_props params.helix_programs with
  | .error e => .error e
  | .ok b => .ok (details, if b then "PSE" else "MEMBRANE")

/-- Embedding of predict_surface_exposure (lines 779-848).  The evidence
    string is assembled on the untrimmed record, the record is then trimmed
    in place, and the category is decided on the trimmed record; a Python
    KeyError on a missing range field becomes an error value. -/
def predict_surface_exposure (params : Params) (p : Protein) :
    Except String (String × String) :=
  let is_hmm_profile_match := !p.hmmsearch.isEmpty
  match helix_details params p with
  | .error e => .error e
  | .ok hd =>
    let details :=
      (if is_hmm_profile_match then "hmm(" ++ p.hmmsearch.headD "" ++ ");" else "")
      ++ (if p.is_lipop then "lipop;" else "")
      ++ (if p.is_signalp then "signalp;" else "")
      ++ hd
    let trimmed :=
      if p.is_lipop then chop_nterminal_peptide p p.lipop_cleave_position
      else if p.is_signalp then chop_nterminal_peptide p p.signalp_cleave_position
      else p
    if is_hmm_profile_match then .ok (details, "PSE")
    else if has_tm_helix params trimmed then
      match hselGo params trimmed.sequence_length trimmed.range_props
          params.helix_programs with
      | .error e => .error e
      | .ok b => .ok (details, if b then "PSE" else "MEMBRANE")
    else if p.is_lipop then
      .ok (details,
        if trimmed.sequence_length < params.terminal_exposed_loop_min then "MEMBRANE"
        else "PSE")
    else if p.is_signalp then .ok (details, "SECRETED")
    else .ok (details, "CYTOPLASM")

/-- All ranges stored in a record, joined across the helix and loop fields. -/
def allRanges (p : Protein) : List (Int × Int) :=
  (p.range_props.map Prod.snd).flatten

lemma filterMap_join_eq (g : Int × Int → Option (Int × Int)) :
    ∀ ls : List (List (Int × Int)),
      (ls.map (List.filterMap g)).flatten = ls.flatten.filterMap g := by
  intro ls
  induction ls with
  | nil => rfl
  | cons l rest ih =>
    simp only [List.map_cons, List.flatten_cons, ih, List.filterMap_append]

lemma allRanges_chop (p : Protein) (c : Int) :
    allRanges (chop_nterminal_peptide p c) = (allRanges p).filterMap (chopSeg c) := by
  simp only [allRanges, chop_nterminal_peptide]
  rw [← filterMap_join_eq]
  congr 1
  rw [List.map_map, List.map_map]
  apply List.map_congr_left
  intro kv _
  simp [Function.comp, chopRanges_eq_filterMap]

/-- C2: on any record whose helix and loop ranges, merged in coordinate
    order, tile residues 1 to sequence_length, trimming by a cut length c
    with 1 le c le sequence_length updates sequence_length to the post-trim
    length and leaves ranges that, merged, tile residues 1 to
    sequence_length - c, with every remaining coordinate at least 1. -/
theorem C2_chop_preserves_partition (p : Protein) (c : Int)
    (merged : List (Int × Int))
    (hperm : merged.Perm (allRanges p))
    (hpart : isPartitionFrom 1 p.sequence_length merged = true)
    (hc1 : 1 ≤ c) (hc2 : c ≤ p.sequence_length) :
    (chop_nterminal_peptide p c).sequence_length = p.sequence_length - c ∧
    (chopRanges c merged).Perm (allRanges (chop_nterminal_peptide p c)) ∧
    isPartitionFrom 1 (p.sequence_length - c) (chopRanges c merged) = true ∧
    (∀ x ∈ allRanges (chop_nterminal_peptide p c), 1 ≤ x.1 ∧ x.1 ≤ x.2) := by
  have hchop : (chopRanges c merged).Perm ((allRanges p).filterMap (chopSeg c)) := by
    rw [chopRanges_eq_filterMap]
    exact hperm.filterMap (chopSeg c)
  have hpart2 : isPartitionFrom 1 (p.sequence_length - c) (chopRanges c merged) = true :=
    chopRanges_partition merged p.sequence_length c hpart hc1 hc2
  refine ⟨rfl, ?_, hpart2, ?_⟩
  · rw [allRanges_chop]
    exact hchop
  · intro x hx
    rw [allRanges_chop] at hx
    have hx2 : x ∈ chopRanges c merged := by
      rw [chopRanges_eq_filterMap]
      exact (hperm.filterMap (chopSeg c)).mem_iff.mpr hx
    have := isPartitionFrom_bounds (chopRanges c merged) 1 (p.sequence_length - c)
      hpart2 x hx2
    exact ⟨this.1, this.2.1⟩

/-- A concrete record for the C2 witness: three fields whose ranges tile
    residues 1 to 8. -/
def proteinC2 : Protein :=
  { sequence_length := 8,
    range_props := [("tmhmm_helices", [(3, 5)]), ("tmhmm_inner_loops", [(6, 8)]),
      ("tmhmm_outer_loops", [(1, 2)])] }

/-- Witness for C2 on the concrete record proteinC2, trimmed by 2. -/
theorem C2_chop_preserves_partition_witness :
    (chop_nterminal_peptide proteinC2 2).sequence_length =
        proteinC2.sequence_length - 2 ∧
    (chopRanges 2 [(1, 2), (3, 5), (6, 8)]).Perm
        (allRanges (chop_nterminal_peptide proteinC2 2)) ∧
    isPartitionFrom 1 (proteinC2.sequence_length - 2)
        (chopRanges 2 [(1, 2), (3, 5), (6, 8)]) = true ∧
    (∀ x ∈ allRanges (chop_nterminal_peptide proteinC2 2), 1 ≤ x.1 ∧ x.1 ≤ x.2) :=
  C2_chop_preserves_partition proteinC2 2 [(1, 2), (3, 5), (6, 8)]
    (by decide) (by decide) (by decide) (by decide)

/-- When a lipoprotein signal is present, the recorded signal-peptide cleave
    position makes no difference to the classification outcome. -/
lemma predict_ignores_signalp_position (params : Params) (p : Protein) (x : Int)
    (h : p.is_lipop = true) :
    predict_surface_exposure params { p with signalp_cleave_position := x } =
      predict_surface_exposure params p := by
  simp only [predict_surface_exposure, chop_nterminal_peptide, helix_details,
    has_tm_helix, lookupProp, h, if_true]

/-- C3: lipoprotein cleavage drives the N-terminal trim, signal-peptide
    cleavage is used only when no lipoprotein signal is present, no trim
    happens without either signal, the signal-peptide position is ignored
    whenever a lipoprotein signal exists, and the PSE-versus-MEMBRANE
    decision for helix-bearing records is evaluated on the trimmed record. -/
theorem C3_trim_precedence (params : Params) (p : Protein) :
    (p.is_lipop = true →
      trimmedOf p = chop_nterminal_peptide p p.lipop_cleave_position) ∧
    (p.is_lipop = false → p.is_signalp = true →
      trimmedOf p = chop_nterminal_peptide p p.signalp_cleave_position) ∧
    (p.is_lipop = false → p.is_signalp = false → trimmedOf p = p) ∧
    (p.is_lipop = true → ∀ x : Int,
      predict_surface_exposure params { p with signalp_cleave_position := x } =
        predict_surface_exposure params p) ∧
    (p.hmmsearch = [] → has_tm_helix params (trimmedOf p) = true →
      predict_surface_exposure params p =
        match detailsOf params p with
        | .error e => .error e
        | .ok d => loopBranch params (trimmedOf p) d) := by
  refine ⟨?_, ?_, ?_, ?_, ?_⟩
  · intro h; simp [trimmedOf, h]
  · intro h1 h2; simp [trimmedOf, h1, h2]
  · intro h1 h2; simp [trimmedOf, h1, h2]
  · intro h x; exact predict_ignores_signalp_position params p x h
  · intro hhmm htm
    simp only [predict_surface_exposure, detailsOf, trimmedOf, loopBranch, hhmm,
      List.isEmpty_nil, Bool.not_true, Bool.false_eq_true, if_false] at htm ⊢
    cases hhd : helix_details params p with
    | error e => rfl
    | ok hd => simp only [htm, if_true]

/-- A configuration with one enabled helix program, used by the concrete
    witnesses. -/
def params3 : Params :=
  { helix_programs := ["tmhmm"], terminal_exposed_loop_min := 4,
    internal_exposed_loop_min := 10, tmbhunt_cutoff := 1, bomp_cutoff := 1 }

/-- A record with both a lipoprotein and a signal-peptide cleave position. -/
def proteinC3a : Protein :=
  { sequence_length := 20, is_lipop := true, lipop_cleave_position := 10,
    is_signalp := true, signalp_cleave_position := 20 }

/-- A lipoprotein record whose helix survives the trim. -/
def proteinC3b : Protein :=
  { sequence_length := 20, is_lipop := true, lipop_cleave_position := 5,
    range_props := [("tmhmm_helices", [(12, 15)]), ("tmhmm_inner_loops", [(1, 11)]),
      ("tmhmm_outer_loops", [(16, 20)])] }

/-- A record with only a signal-peptide cleave position. -/
def proteinC3c : Protein :=
  { sequence_length := 9, is_signalp := true, signalp_cleave_position := 3 }

/-- Witness for C3 at concrete records: with both signals the trim uses the
    lipoprotein position 10 and the signal-peptide position is ignored; with
    only a signal peptide the trim uses its position 3; the helix branch is
    decided on the trimmed record. -/
theorem C3_trim_precedence_witness :
    trimmedOf proteinC3a = chop_nterminal_peptide proteinC3a 10 ∧
    trimmedOf proteinC3c = chop_nterminal_peptide proteinC3c 3 ∧
    predict_surface_exposure params3 { proteinC3a with signalp_cleave_position := 5 } =
      predict_surface_exposure params3 proteinC3a ∧
    predict_surface_exposure params3 proteinC3b =
      (match detailsOf params3 proteinC3b with
       | .error e => .error e
       | .ok d => loopBranch params3 (trimmedOf proteinC3b) d) :=
  ⟨(C3_trim_precedence params3 proteinC3a).1 rfl,
   (C3_trim_precedence params3 proteinC3c).2.1 rfl rfl,
   (C3_trim_precedence params3 proteinC3a).2.2.2.1 rfl 5,
   (C3_trim_precedence params3 proteinC3b).2.2.2.2 rfl (by decide)⟩

/-- A configuration with two enabled helix programs. -/
def params4 : Params :=
  { helix_programs := ["tmhmm", "memsat3"], terminal_exposed_loop_min := 3,
    internal_exposed_loop_min := 10, tmbhunt_cutoff := 1, bomp_cutoff := 1 }

/-- A record in which tmhmm reports one helix and memsat3 reports zero
    helices (its fields are present but empty). -/
def proteinC4 : Protein :=
  { sequence_length := 10,
    range_props := [("tmhmm_helices", [(3, 5)]), ("tmhmm_inner_loops", [(6, 10)]),
      ("tmhmm_outer_loops", [(1, 2)]), ("memsat3_helices", []),
      ("memsat3_inner_loops", []), ("memsat3_outer_loops", [])] }

/-- Counterexample to C4: memsat3 reports zero helices, yet the evidence
    string carries the tag memsat3(0), because the guard of the evidence
    loop tests whether any enabled program has a helix, not the program of
    the current iteration. -/
theorem C4_counterexample_zero_helix_tag :
    lookupProp proteinC4 "memsat3_helices" = some [] ∧
    predict_surface_exposure params4 proteinC4 =
      .ok ("tmhmm(1);memsat3(0);", "PSE") := by
  decide

/-- C4 amended: when no enabled program reports a helix the evidence loop
    contributes nothing; when at least one does and every enabled program
    has a helices field, the loop appends a tag with the own helix count of
    every enabled program, including zero counts. -/
lemma helixTags_all_present (rp : List (String × List (Int × Int))) :
    ∀ l : List String, (∀ prog ∈ l, (rp.lookup (prog ++ "_helices")).isSome) →
      helixTags rp l =
        .ok ((l.map (fun prog =>
          prog ++ "(" ++ toString ((rp.lookup (prog ++ "_helices")).getD []).length ++
            ");")).foldr (fun a b => a ++ b) "") := by
  intro l
  induction l with
  | nil => intro _; rfl
  | cons prog rest ih =>
    intro hall
    have hsome := hall prog (List.mem_cons_self prog rest)
    obtain ⟨hs, hhs⟩ := Option.isSome_iff_exists.mp hsome
    have ihr := ih (fun q hq => hall q (List.mem_cons_of_mem prog hq))
    simp only [helixTags, hhs, ihr, List.map_cons, List.foldr_cons, Option.getD_some]

theorem C4_amended_helix_tag_gating (params : Params) (p : Protein) :
    (has_tm_helix params p = false → helix_details params p = .ok "") ∧
    (has_tm_helix params p = true →
      (∀ prog ∈ params.helix_programs, (lookupProp p (prog ++ "_helices")).isSome) →
      helix_details params p =
        .ok ((params.helix_programs.map (fun prog =>
          prog ++ "(" ++
            toString ((lookupProp p (prog ++ "_helices")).getD []).length ++
            ");")).foldr (fun a b => a ++ b) "")) := by
  constructor
  · intro h
    simp [helix_details, h]
  · intro h hall
    simp only [helix_details, h, if_true]
    exact helixTags_all_present p.range_props params.helix_programs hall

/-- Witness for the amended C4: the silent case on a record with no
    helices, and the tagging case on the record of the counterexample. -/
theorem C4_amended_helix_tag_gating_witness :
    helix_details params3 proteinC3c = .ok "" ∧
    helix_details params4 proteinC4 =
      .ok ((params4.helix_programs.map (fun prog =>
        prog ++ "(" ++
          toString ((lookupProp proteinC4 (prog ++ "_helices")).getD []).length ++
          ");")).foldr (fun a b => a ++ b) "") :=
  ⟨(C4_amended_helix_tag_gating params3 proteinC3c).1 (by decide),
   (C4_amended_helix_tag_gating params4 proteinC4).2 (by decide) (by decide)⟩

/-- A signal-peptide record whose only helix lies inside the cleaved leader,
    so the trim deletes every helix range. -/
def proteinC5 : Protein :=
  { sequence_length := 20, is_signalp := true, signalp_cleave_position := 10,
    range_props := [("tmhmm_helices", [(2, 5)]), ("tmhmm_inner_loops", []),
      ("tmhmm_outer_loops", [(1, 1), (6, 20)])] }

/-- Counterexample to C5: tmhmm reported one helix on the untrimmed record,
    but the trim removes it, the membrane-topology branch is not taken, and
    the category falls through to SECRETED instead of PSE or MEMBRANE. -/
theorem C5_counterexample_posttrim_branch :
    has_tm_helix params3 proteinC5 = true ∧
    has_tm_helix params3 (trimmedOf proteinC5) = false ∧
    predict_surface_exposure params3 proteinC5 =
      .ok ("signalp;tmhmm(1);", "SECRETED") := by
  decide

/-- C5 amended: the branch condition is evaluated on the record after the
    step-4 trim.  When some enabled program still has a helix post-trim the
    loop branch decides PSE or MEMBRANE on the trimmed record; when the trim
    leaves no helix the branch is skipped and the lipoprotein, signal
    peptide or cytoplasm rules apply, even if helices existed pre-trim. -/
theorem C5_amended_branch_on_trimmed (params : Params) (p : Protein)
    (hhmm : p.hmmsearch = []) :
    (has_tm_helix params (trimmedOf p) = true →
      predict_surface_exposure params p =
        match detailsOf params p with
        | .error e => .error e
        | .ok d => loopBranch params (trimmedOf p) d) ∧
    (has_tm_helix params (trimmedOf p) = false →
      predict_surface_exposure params p =
        match detailsOf params p with
        | .error e => .error e
        | .ok d =>
          .ok (d,
            if p.is_lipop then
              (if (trimmedOf p).sequence_length < params.terminal_exposed_loop_min
               then "MEMBRANE" else "PSE")
            else if p.is_signalp then "SECRETED" else "CYTOPLASM")) := by
  constructor
  · intro htm
    simp only [predict_surface_exposure, detailsOf, trimmedOf, loopBranch, hhmm,
      List.isEmpty_nil, Bool.not_true, Bool.false_eq_true, if_false] at htm ⊢
    cases hhd : helix_details params p with
    | error e => rfl
    | ok hd => simp only [htm, if_true]
  · intro htm
    simp only [predict_surface_exposure, detailsOf, trimmedOf, hhmm,
      List.isEmpty_nil, Bool.not_true, Bool.false_eq_true, if_false] at htm ⊢
    cases hhd : helix_details params p with
    | error e => rfl
    | ok hd =>
      simp only [htm, Bool.false_eq_true, if_false]
      by_cases hl : p.is_lipop
      · simp [hl]
      · by_cases hsp : p.is_signalp
        · simp [hl, hsp]
        · simp [hl, hsp]

/-- Witness for the amended C5: the branch is taken on a record whose helix
    survives the trim, and skipped on the record of the counterexample. -/
theorem C5_amended_branch_on_trimmed_witness :
    (predict_surface_exposure params3 proteinC3b =
      match detailsOf params3 proteinC3b with
      | .error e => .error e
      | .ok d => loopBranch params3 (trimmedOf proteinC3b) d) ∧
    (predict_surface_exposure params3 proteinC5 =
      match detailsOf params3 proteinC5 with
      | .error e => .error e
      | .ok d =>
        .ok (d,
          if proteinC5.is_lipop then
            (if (trimmedOf proteinC5).sequence_length < params3.terminal_exposed_loop_min
             then "MEMBRANE" else "PSE")
          else if proteinC5.is_signalp then "SECRETED" else "CYTOPLASM")) :=
  ⟨(C5_amended_branch_on_trimmed params3 proteinC3b rfl).1 (by decide),
   (C5_amended_branch_on_trimmed params3 proteinC5 rfl).2 (by decide)⟩

lemma lookup_map_ranges (f : List (Int × Int) → List (Int × Int))
    (rp : List (String × List (Int × Int))) (key : String) :
    (rp.map (fun kv => (kv.1, f kv.2))).lookup key = (rp.lookup key).map f := by
  induction rp with
  | nil => rfl
  | cons kv rest ih =>
    obtain ⟨k, v⟩ := kv
    cases h : key == k with
    | true => simp [List.lookup, h]
    | false => simp [List.lookup, h, ih]

/-- Trimming cannot create a helix: a record without helices still has none
    after chop_nterminal_peptide. -/
lemma has_tm_helix_chop (params : Params) (p : Protein) (c : Int)
    (h : has_tm_helix params p = false) :
    has_tm_helix params (chop_nterminal_peptide p c) = false := by
  simp only [has_tm_helix, List.any_eq_false] at h ⊢
  intro prog hp
  have h2 := h prog hp
  simp only [lookupProp, chop_nterminal_peptide] at h2 ⊢
  rw [lookup_map_ranges (chopRanges c) p.range_props]
  cases hl : p.range_props.lookup (prog ++ "_helices") with
  | none => simp
  | some v =>
    rw [hl] at h2
    simp only [Option.getD_some, Bool.not_eq_eq_eq_not, Bool.not_true] at h2
    have hv : v = [] := by
      simpa using h2
    subst hv
    simp [chopRanges, cleanup]

/-- C6 amended, provable half: when no enabled helix program reports a
    helix, a record may lack any range fields and classification still
    completes without an error, the missing programs contributing nothing. -/
theorem C6_amended_no_raise_without_helices (params : Params) (p : Protein)
    (h : has_tm_helix params p = false) :
    ∃ r, predict_surface_exposure params p = Except.ok r := by
  have hd : helix_details params p = .ok "" := by simp [helix_details, h]
  have htr : has_tm_helix params
      (if p.is_lipop then chop_nterminal_peptide p p.lipop_cleave_position
       else if p.is_signalp then chop_nterminal_peptide p p.signalp_cleave_position
       else p) = false := by
    by_cases hl : p.is_lipop
    · simp only [hl, if_true]
      exact has_tm_helix_chop params p _ h
    · by_cases hsp : p.is_signalp
      · simp only [hl, hsp, Bool.false_eq_true, if_false, if_true]
        exact has_tm_helix_chop params p _ h
      · simp only [hl, hsp, Bool.false_eq_true, if_false]
        exact h
  simp only [predict_surface_exposure, hd, htr, Bool.false_eq_true, if_false]
  split
  · exact ⟨_, rfl⟩
  · split
    · exact ⟨_, rfl⟩
    · split
      · exact ⟨_, rfl⟩
      · exact ⟨_, rfl⟩

/-- A record with a tmhmm helix but no memsat3 fields at all. -/
def proteinC6 : Protein :=
  { sequence_length := 10,
    range_props := [("tmhmm_helices", [(3, 5)]), ("tmhmm_inner_loops", [(6, 10)]),
      ("tmhmm_outer_loops", [(1, 2)])] }

/-- Counterexample to C6: with tmhmm and memsat3 both enabled and memsat3
    never run on this record, classification raises a KeyError instead of
    treating memsat3 as contributing nothing. -/
theorem C6_counterexample_keyerror :
    lookupProp proteinC6 "memsat3_helices" = none ∧
    predict_surface_exposure params4 proteinC6 =
      .error "KeyError: memsat3_helices" := by
  decide

/-- Witness for the amended C6: a record with no range fields at all is
    classified without an error when both programs are enabled. -/
theorem C6_amended_no_raise_without_helices_witness :
    ∃ r, predict_surface_exposure params4 proteinC3c = Except.ok r :=
  C6_amended_no_raise_without_helices params4 proteinC3c (by decide)

lemma helixTags_error (rp : List (String × List (Int × Int))) :
    ∀ (l : List String) (e : String), helixTags rp l = .error e →
      ∃ s, e = "KeyError: " ++ s := by
  intro l
  induction l with
  | nil =>
    intro e h
    exact absurd h (by simp [helixTags])
  | cons prog rest ih =>
    intro e h
    cases hl : rp.lookup (prog ++ "_helices") with
    | none =>
      simp only [helixTags, hl, Except.error.injEq] at h
      exact ⟨prog ++ "_helices", by rw [← h, String.append_assoc]⟩
    | some hs =>
      cases hr : helixTags rp rest with
      | ok s => simp [helixTags, hl, hr] at h
      | error e2 =>
        simp only [helixTags, hl, hr, Except.error.injEq] at h
        obtain ⟨s, hs2⟩ := ih e2 hr
        exact ⟨s, by rw [← h, hs2]⟩

lemma hselGo_error (params : Params) (seqlen : Int)
    (rp : List (String × List (Int × Int))) :
    ∀ (l : List String) (e : String), hselGo params seqlen rp l = .error e →
      ∃ s, e = "KeyError: " ++ s := by
  intro l
  induction l with
  | nil =>
    intro e h
    exact absurd h (by simp [hselGo])
  | cons prog rest ih =>
    intro e h
    cases hl : rp.lookup (prog ++ "_helices") with
    | none =>
      simp only [hselGo, hl, Except.error.injEq] at h
      exact ⟨prog ++ "_helices", by rw [← h, String.append_assoc]⟩
    | some hs =>
      cases ho : rp.lookup (prog ++ "_outer_loops") with
      | none =>
        simp only [hselGo, hl, ho, Except.error.injEq] at h
        exact ⟨prog ++ "_outer_loops", by rw [← h, String.append_assoc]⟩
      | some ol =>
        simp only [hselGo, hl, ho] at h
        by_cases hev : eval_surface_exposed_loop seqlen hs.length ol
            params.terminal_exposed_loop_min params.internal_exposed_loop_min = true
        · rw [if_pos hev] at h
          exact absurd h (by simp)
        · rw [if_neg hev] at h
          exact ih e h

/-- A lipoprotein record whose recorded cleave position 10 exceeds its
    sequence length 5. -/
def proteinC7 : Protein :=
  { sequence_length := 5, is_lipop := true, lipop_cleave_position := 10 }

/-- Counterexample to C7: classification neither validates the cleave
    position nor fails; it silently trims, leaving a negative sequence
    length, and still assigns a category. -/
theorem C7_counterexample_silent_trim :
    proteinC7.lipop_cleave_position > proteinC7.sequence_length ∧
    predict_surface_exposure params3 proteinC7 = .ok ("lipop;", "MEMBRANE") ∧
    (chop_nterminal_peptide proteinC7 proteinC7.lipop_cleave_position).sequence_length
      = -5 := by
  decide

/-- C7 amended: the trim is unconditional arithmetic, valid for any cut
    including cuts larger than the sequence or nonpositive, and the only
    error classification can ever produce is a missing-field KeyError, never
    a cleavage-position error. -/
theorem C7_amended_unvalidated_trim :
    (∀ (p : Protein) (c : Int),
      (chop_nterminal_peptide p c).sequence_length = p.sequence_length - c) ∧
    (∀ (params : Params) (p : Protein) (e : String),
      predict_surface_exposure params p = .error e →
      ∃ s, e = "KeyError: " ++ s) := by
  constructor
  · intro p c
    rfl
  · intro params p e h
    simp only [predict_surface_exposure] at h
    cases hhd : helix_details params p with
    | error e1 =>
      rw [hhd] at h
      simp only [Except.error.injEq] at h
      subst h
      by_cases htm : has_tm_helix params p = true
      · simp only [helix_details, htm, if_true] at hhd
        exact helixTags_error p.range_props params.helix_programs e1 hhd
      · simp only [helix_details] at hhd
        rw [if_neg htm] at hhd
        exact absurd hhd (by simp)
    | ok hd =>
      simp only [hhd] at h
      by_cases hm : (!p.hmmsearch.isEmpty) = true
      · rw [if_pos hm] at h
        exact absurd h (by simp)
      · rw [if_neg hm] at h
        by_cases htm : has_tm_helix params
            (if p.is_lipop then chop_nterminal_peptide p p.lipop_cleave_position
             else if p.is_signalp then chop_nterminal_peptide p p.signalp_cleave_position
             else p) = true
        · rw [if_pos htm] at h
          cases hgo : hselGo params
              (if p.is_lipop then chop_nterminal_peptide p p.lipop_cleave_position
               else if p.is_signalp then chop_nterminal_peptide p p.signalp_cleave_position
               else p).sequence_length
              (if p.is_lipop then chop_nterminal_peptide p p.lipop_cleave_position
               else if p.is_signalp then chop_nterminal_peptide p p.signalp_cleave_position
               else p).range_props
              params.helix_programs with
          | error e2 =>
            rw [hgo] at h
            simp only [Except.error.injEq] at h
            subst h
            exact hselGo_error params _ _ params.helix_programs e2 hgo
          | ok b =>
            rw [hgo] at h
            exact absurd h (by simp)
        · rw [if_neg htm] at h
          by_cases hl : p.is_lipop = true
          · rw [if_pos hl] at h
            exact absurd h (by simp)
          · rw [if_neg hl] at h
            by_cases hsp : p.is_signalp = true
            · rw [if_pos hsp] at h
              exact absurd h (by simp)
            · rw [if_neg hsp] at h
              exact absurd h (by simp)

/-- Witness for the amended C7: the out-of-range cut 10 on a length-5
    record shrinks the length to -5 without any error, and the one error
    classification does produce on a record with missing fields is a
    KeyError string. -/
theorem C7_amended_unvalidated_trim_witness :
    (chop_nterminal_peptide proteinC7 10).sequence_length =
      proteinC7.sequence_length - 10 ∧
    ∃ s, "KeyError: memsat3_helices" = "KeyError: " ++ s :=
  ⟨C7_amended_unvalidated_trim.1 proteinC7 10,
   C7_amended_unvalidated_trim.2 params4 proteinC6 "KeyError: memsat3_helices"
     (by decide)⟩

/-- Python truthiness of an optional numeric feature value. -/
def truthyRat : Option Rat → Bool
  | none => false
  | some v => decide (¬v = 0)

/-- dict_get(protein, bomp) or dict_get(protein, tmbhunt), the barrel
    predictor signal tested by identify_omps (lines 971-977). -/
def barrelTruthy (p : Protein) : Bool :=
  truthyRat p.bomp || truthyRat p.tmbhunt

/-- The per-protein category produced by identify_omps (lines 961-978): the
    base classification, then the BARREL override, gated on a detected
    signal peptide when stringent. -/
def identify_omps_category (stringent : Bool) (params : Params) (p : Protein) :
    Except String String :=
  match predict_surface_exposure params p with
  | .error e => .error e
  | .ok dc =>
    if stringent then
      if p.is_signalp && barrelTruthy p then .ok "BARREL" else .ok dc.2
    else
      if barrelTruthy p then .ok "BARREL" else .ok dc.2

/-- C8: a SECRETED protein flagged by a barrel predictor becomes BARREL in
    non-stringent mode; in stringent mode the override fires only when a
    signal peptide was detected as well, so without one the base category is
    kept (in particular a SECRETED protein stays SECRETED), and with one
    plus a barrel flag the category becomes BARREL. -/
theorem C8_barrel_override (params : Params) (p : Protein) (d c : String)
    (h : predict_surface_exposure params p = .ok (d, c)) :
    (c = "SECRETED" → barrelTruthy p = true →
      identify_omps_category false params p = .ok "BARREL") ∧
    (p.is_signalp = false → identify_omps_category true params p = .ok c) ∧
    (p.is_signalp = true → barrelTruthy p = true →
      identify_omps_category true params p = .ok "BARREL") := by
  refine ⟨?_, ?_, ?_⟩
  · intro _ hb
    simp [identify_omps_category, h, hb]
  · intro hsp
    simp [identify_omps_category, h, hsp]
  · intro hsp hb
    simp [identify_omps_category, h, hsp, hb]

/-- A secreted protein flagged by the bomp barrel predictor. -/
def proteinC8 : Protein :=
  { sequence_length := 10, is_signalp := true, signalp_cleave_position := 3,
    bomp := some 1 }

/-- A barrel-flagged protein with no signal peptide. -/
def proteinC8b : Protein :=
  { sequence_length := 10, bomp := some 1 }

/-- Witness for C8: the override turns the SECRETED record into BARREL in
    both modes when the signal peptide is present, and stringent mode keeps
    the base category when it is absent. -/
theorem C8_barrel_override_witness :
    identify_omps_category false params3 proteinC8 = .ok "BARREL" ∧
    identify_omps_category true params3 proteinC8 = .ok "BARREL" ∧
    identify_omps_category true params3 proteinC8b = .ok "CYTOPLASM" :=
  ⟨(C8_barrel_override params3 proteinC8 "signalp;" "SECRETED" (by decide)).1
      rfl (by decide),
   (C8_barrel_override params3 proteinC8 "signalp;" "SECRETED" (by decide)).2.2
      rfl (by decide),
   (C8_barrel_override params3 proteinC8b "" "CYTOPLASM" (by decide)).2.1 rfl⟩

/-- The derived barrel signal of print_summary_table (lines 916-917): a
    missing score compares as 0 against the cutoff. -/
def barrel_signal (params : Params) (p : Protein) : Bool :=
  decide (p.tmbhunt_prob.getD 0 ≥ params.tmbhunt_cutoff) ||
  decide (p.bomp.getD 0 ≥ params.bomp_cutoff)

/-- The counts dictionary before any protein is visited (line 910-911). -/
def summary_init : String → Option Nat :=
  fun c => if c = "BARREL" then some 0 else none

/-- One iteration of the counting loop of print_summary_table (lines
    912-923): possibly bump the derived BARREL count, then visit this
    record's stored category, initialising it to zero on first sight and
    incrementing it otherwise. -/
def summary_step (params : Params) (counts : String → Option Nat) (p : Protein) :
    String → Option Nat :=
  let counts1 : String → Option Nat :=
    if barrel_signal params p then
      fun c => if c = "BARREL" then some ((counts "BARREL").getD 0 + 1) else counts c
    else counts
  fun c =>
    if c = p.category then
      match counts1 p.category with
      | none => some 0
      | some n => some (n + 1)
    else counts1 c

/-- The category-to-count mapping print_summary_table builds. -/
def print_summary_counts (params : Params) (ps : List Protein) :
    String → Option Nat :=
  ps.foldl (summary_step params) summary_init

/-- A classified protein whose stored category is CYTOPLASM and whose
    barrel scores are absent. -/
def proteinC9 : Protein := { sequence_length := 5, category := "CYTOPLASM" }

/-- A protein whose stored category is BARREL. -/
def proteinC9b : Protein := { sequence_length := 5, category := "BARREL" }

/-- C9 fails on the code: for the one-protein set with stored category
    CYTOPLASM the summary reports 0, not 1, because the first protein of a
    category initialises its count to zero instead of one; and a protein
    whose stored category is BARREL increments the supposedly derived
    BARREL count even though its score cutoffs never fired. -/
theorem C9_summary_offbyone :
    ([proteinC9].filter (fun q => q.category == "CYTOPLASM")).length = 1 ∧
    print_summary_counts params3 [proteinC9] "CYTOPLASM" = some 0 ∧
    barrel_signal params3 proteinC9b = false ∧
    print_summary_counts params3 [proteinC9b] "BARREL" = some 1 := by
  decide

/-- C10: whatever the record and configuration, when the base classifier
    returns at all its category is one of PSE, MEMBRANE, SECRETED or
    CYTOPLASM; BARREL is never produced by the base procedure. -/
theorem C10_base_category_range (params : Params) (p : Protein) (d c : String)
    (h : predict_surface_exposure params p = .ok (d, c)) :
    c = "PSE" ∨ c = "MEMBRANE" ∨ c = "SECRETED" ∨ c = "CYTOPLASM" := by
  simp only [predict_surface_exposure] at h
  cases hhd : helix_details params p with
  | error e =>
    rw [hhd] at h
    exact absurd h (by simp)
  | ok hd =>
    simp only [hhd] at h
    by_cases hm : (!p.hmmsearch.isEmpty) = true
    · rw [if_pos hm] at h
      simp only [Except.ok.injEq, Prod.mk.injEq] at h
      exact Or.inl h.2.symm
    · rw [if_neg hm] at h
      by_cases htm : has_tm_helix params
          (if p.is_lipop then chop_nterminal_peptide p p.lipop_cleave_position
           else if p.is_signalp then chop_nterminal_peptide p p.signalp_cleave_position
           else p) = true
      · rw [if_pos htm] at h
        cases hgo : hselGo params
            (if p.is_lipop then chop_nterminal_peptide p p.lipop_cleave_position
             else if p.is_signalp then chop_nterminal_peptide p p.signalp_cleave_position
             else p).sequence_length
            (if p.is_lipop then chop_nterminal_peptide p p.lipop_cleave_position
             else if p.is_signalp then chop_nterminal_peptide p p.signalp_cleave_position
             else p).range_props
            params.helix_programs with
        | error e2 =>
          rw [hgo] at h
          exact absurd h (by simp)
        | ok b =>
          rw [hgo] at h
          simp only [Except.ok.injEq, Prod.mk.injEq] at h
          cases b with
          | true => exact Or.inl (by simpa using h.2.symm)
          | false => exact Or.inr (Or.inl (by simpa using h.2.symm))
      · rw [if_neg htm] at h
        by_cases hl : p.is_lipop = true
        · rw [if_pos hl] at h
          simp only [Except.ok.injEq, Prod.mk.injEq] at h
          by_cases hlen : (if p.is_lipop then chop_nterminal_peptide p p.lipop_cleave_position
              else if p.is_signalp then chop_nterminal_peptide p p.signalp_cleave_position
              else p).sequence_length < params.terminal_exposed_loop_min
          · rw [if_pos hlen] at h
            exact Or.inr (Or.inl h.2.symm)
          · rw [if_neg hlen] at h
            exact Or.inl h.2.symm
        · rw [if_neg hl] at h
          by_cases hsp : p.is_signalp = true
          · rw [if_pos hsp] at h
            simp only [Except.ok.injEq, Prod.mk.injEq] at h
            exact Or.inr (Or.inr (Or.inl h.2.symm))
          · rw [if_neg hsp] at h
            simp only [Except.ok.injEq, Prod.mk.injEq] at h
            exact Or.inr (Or.inr (Or.inr h.2.symm))

/-- Witness for C10 at a record that classifies as CYTOPLASM. -/
theorem C10_base_category_range_witness :
    "CYTOPLASM" = "PSE" ∨ "CYTOPLASM" = "MEMBRANE" ∨ "CYTOPLASM" = "SECRETED" ∨
      "CYTOPLASM" = "CYTOPLASM" :=
  C10_base_category_range params3 proteinC9 "" "CYTOPLASM" (by decide)

end Inmembrane
